import Mathlib

/-!
# Verification of the `ConnectionPool` component (ConnectPool.cpp)

Shallow embedding of the bounded, thread-safe connection pool implemented in
`ConnectPool.cpp`.  The pool's data members (`connections_`, `connectionsAlive_`,
`free_`, `poolSize_`) become a `PoolState`; the two mutating operations
`GetConnection` and `FreeConnection` become pure state transformers; the mutex
and condition variable, being pure synchronisation devices, are reflected in the
semantics: the quiescent-point semantics `PoolStep` fires whole critical
sections atomically (with the condition-variable wait as the precondition
`0 < free_`), while the fine-grained semantics `MicroStep` interleaves the
individual statements of `GetConnection`'s critical section, which is what the
unsynchronised accessors can observe.
-/

/-- Models `struct FakeConnection`.  `instanceTag` models object identity — the
distinct heap allocation produced by each `std::make_shared` call, numbered in
creation order; `id` is the data member `id`, computed as `stoi(threadId)`. -/
structure FakeConnection where
  instanceTag : Nat
  id : Int
deriving DecidableEq

/-- `using ConnectionPtr = std::shared_ptr<FakeConnection>` — a nullable pointer. -/
abbrev ConnectionPtr := Option FakeConnection

/-- The data members of `class ConnectionPool`: `connections_` (the idle cache,
a `std::vector<ConnectionPtr>` whose back is the most recently pushed element),
`connectionsAlive_`, `free_` and `poolSize_`.  The mutex `mt_` and the condition
variable `cv_` carry no data and are modelled by the step relations below. -/
structure PoolState where
  connections : List ConnectionPtr
  connectionsAlive : Nat
  free : Nat
  poolSize : Nat
deriving DecidableEq

/-- The constructor `ConnectionPool(size_t poolSize): poolSize_(poolSize),
free_(poolSize) {}`.  It performs no validation whatsoever: every `size_t`
argument (including `0`) yields a pool; `connectionsAlive_` starts at `0` and
the idle cache starts empty. -/
def initPool (poolSize : Nat) : PoolState :=
  { connections := [], connectionsAlive := 0, free := poolSize, poolSize := poolSize }

/-- Model of C++ `std::stoi`: skip leading whitespace, optional sign, then the
longest run of decimal digits.  `none` models a thrown exception
(`std::invalid_argument` when no digits are found, `std::out_of_range` when the
value does not fit in a 32-bit `int`). -/
def stoiOpt (s : String) : Option Int :=
  let cs := s.toList.dropWhile fun c =>
    c == ' ' || c == '\t' || c == '\n' || c == '\r' || c == Char.ofNat 11 || c == Char.ofNat 12
  let signAndRest : Int × List Char :=
    match cs with
    | '-' :: r => (-1, r)
    | '+' :: r => (1, r)
    | r => (1, r)
  let digits := signAndRest.2.takeWhile Char.isDigit
  if digits.isEmpty then none
  else
    let v : Int := signAndRest.1 * ((digits.foldl (fun a c => a * 10 + (c.toNat - 48)) 0 : Nat) : Int)
    if v < -(2 ^ 31) ∨ 2 ^ 31 - 1 < v then none else some v

/-- `size_t` subtraction: C++ unsigned arithmetic wraps modulo `2 ^ 64`. -/
def sizeSub (a b : Nat) : Nat := (((a : Int) - (b : Int)) % (2 ^ 64 : Int)).toNat

/-- Accessor `PoolSize()`: returns `poolSize_`. -/
def PoolSize (s : PoolState) : Nat := s.poolSize

/-- Accessor `ConnectionsAlive()`: returns `connectionsAlive_`. -/
def ConnectionsAlive (s : PoolState) : Nat := s.connectionsAlive

/-- Accessor `ConnectionsInUse()`: returns `poolSize_ - free_`, a `size_t`
subtraction.  Like the other two accessors it reads the fields without taking
the mutex. -/
def ConnectionsInUse (s : PoolState) : Nat := sizeSub s.poolSize s.free

/-- The body of `GetConnection(std::string threadId)` after
`cv_.wait(lock, [this](){return free_ > 0;})` has let the thread through, so it
is applied only where `free_ > 0` (the wait itself is the precondition of the
step relations below).  Returns the pool fields as they are when the call ends,
together with `Except.ok ptr` for a normal return or `Except.error ()` for a
thrown exception.  Mirroring the source statement by statement: `--free_` runs
first; if the cache is empty, the factory expression
`std::make_shared<FakeConnection>(stoi(threadId))` runs — when `stoi` throws,
the exception propagates out of `GetConnection` with `free_` already
decremented and never restored — otherwise `++connectionsAlive_` runs and the
fresh object is returned; if the cache is non-empty, its back element is popped
(`connections_.back()` then `connections_.pop_back()`) and returned. -/
def GetConnection (s : PoolState) (threadId : String) : PoolState × Except Unit ConnectionPtr :=
  let s1 : PoolState := { s with free := s.free - 1 }
  match s1.connections.getLast? with
  | none =>
    match stoiOpt threadId with
    | none => (s1, Except.error ())
    | some n =>
      ({ s1 with connectionsAlive := s1.connectionsAlive + 1 },
        Except.ok (some { instanceTag := s1.connectionsAlive, id := n }))
  | some p =>
    ({ s1 with connections := s1.connections.dropLast }, Except.ok p)

/-- `FreeConnection(ConnectionPtr& connection)`: under the lock,
`connections_.push_back(std::move(connection))` — the move leaves the caller's
`shared_ptr` empty, which is why the caller's pointer after the call is
returned as a component — then `++free_`, then `cv_.notify_one()`.  `waiting`
is the number of threads blocked in `cv_.wait` at the time of the call;
`notify_one` wakes one of them when there is at least one, so the number of
waiters woken is `min waiting 1`.  The function is total: `FreeConnection` has
no condition wait and never blocks.  Result: (new pool fields, the caller's
pointer after the call, number of waiters woken). -/
def FreeConnection (s : PoolState) (connection : ConnectionPtr) (waiting : Nat) :
    PoolState × ConnectionPtr × Nat :=
  ({ s with connections := s.connections ++ [connection], free := s.free + 1 },
    none, min waiting 1)

/-- A pool together with its environment: the multiset of pointers currently
checked out to callers (each `GetConnection` result that has not yet been
passed back to `FreeConnection`). -/
structure PoolConfig where
  pool : PoolState
  checkedOut : List ConnectionPtr
deriving DecidableEq

/-- A freshly constructed pool: no caller holds a connection yet. -/
def initConfig (n : Nat) : PoolConfig := { pool := initPool n, checkedOut := [] }

/-- Quiescent-point semantics of correct concurrent usage.  Each constructor
fires one whole critical section atomically (the mutex makes them mutually
exclusive).  `get` models a successful `GetConnection` call: the precondition
`0 < free_` is the condition-variable wait, and the result pointer joins the
caller's hands.  `free` models `FreeConnection` on a pointer previously
obtained from `get` and not yet freed (each `GetConnection` result is passed to
exactly one `FreeConnection`); at a quiescent point no thread is blocked inside
`cv_.wait`, so the waiting count is `0`. -/
inductive PoolStep : PoolConfig → PoolConfig → Prop
  | get (c : PoolConfig) (tid : String) (s' : PoolState) (p : ConnectionPtr) :
      0 < c.pool.free →
      GetConnection c.pool tid = (s', Except.ok p) →
      PoolStep c { pool := s', checkedOut := p :: c.checkedOut }
  | free (c : PoolConfig) (p : ConnectionPtr) (pre post : List ConnectionPtr) :
      c.checkedOut = pre ++ p :: post →
      PoolStep c { pool := (FreeConnection c.pool p 0).1, checkedOut := pre ++ post }

/-- The states a correctly used pool can reach from construction. -/
def PoolReachable (c : PoolConfig) : Prop :=
  ∃ n : Nat, Relation.ReflTransGen PoolStep (initConfig n) c

/-- The identity tags of all currently existing connection instances, idle
cache first, then the checked-out handles. -/
def liveTags (c : PoolConfig) : List Nat :=
  (c.pool.connections ++ c.checkedOut).filterMap fun p => p.map FakeConnection.instanceTag

/-- The inductive invariant of the pool: `free_` plus the number of checked-out
handles is the capacity; `connectionsAlive_` counts exactly the checked-out
handles plus the idle cache; `connectionsAlive_` never exceeds the capacity;
and the existing instances are precisely the tags `0, …, connectionsAlive_ - 1`,
each in exactly one ownership slot. -/
def PoolInv (c : PoolConfig) : Prop :=
  c.pool.free + c.checkedOut.length = c.pool.poolSize ∧
  c.pool.connectionsAlive = c.checkedOut.length + c.pool.connections.length ∧
  c.pool.connectionsAlive ≤ c.pool.poolSize ∧
  List.Perm (liveTags c) (List.range c.pool.connectionsAlive)

theorem inv_init (n : Nat) : PoolInv (initConfig n) := by
  refine ⟨by simp [initConfig, initPool], by simp [initConfig, initPool],
    by simp [initConfig, initPool], ?_⟩
  simp [liveTags, initConfig, initPool]

/-- Case analysis on a successful `GetConnection` call: either the cache was
empty and a fresh instance was created, or the cache's back element was
reused. -/
theorem getConnection_cases (s : PoolState) (tid : String) (s' : PoolState) (p : ConnectionPtr)
    (heq : GetConnection s tid = (s', Except.ok p)) :
    (s.connections = [] ∧ ∃ m, stoiOpt tid = some m ∧
      p = some { instanceTag := s.connectionsAlive, id := m } ∧
      s' = { s with free := s.free - 1, connectionsAlive := s.connectionsAlive + 1 }) ∨
    (∃ l, s.connections = l ++ [p] ∧
      s' = { s with free := s.free - 1, connections := l }) := by
  rcases List.eq_nil_or_concat s.connections with hc | ⟨l, q, hc⟩
  · left
    rcases hstoi : stoiOpt tid with _ | m
    · simp [GetConnection, hc, hstoi] at heq
    · simp [GetConnection, hc, hstoi] at heq
      obtain ⟨h5, h6⟩ := heq
      subst h5
      subst h6
      refine ⟨hc, m, rfl, rfl, ?_⟩
      simp [hc]
  · rw [List.concat_eq_append] at hc
    right
    simp [GetConnection, hc, List.getLast?_concat, List.dropLast_concat] at heq
    obtain ⟨h5, h6⟩ := heq
    subst h5
    subst h6
    exact ⟨l, hc, rfl⟩

theorem inv_step {c c' : PoolConfig} (h : PoolStep c c') (hI : PoolInv c) : PoolInv c' := by
  obtain ⟨h1, h2, h3, h4⟩ := hI
  cases h with
  | get tid s' p hfree heq =>
    rcases getConnection_cases c.pool tid s' p heq with
      ⟨hc, m, hstoi, hp, hs'⟩ | ⟨l, hc, hs'⟩
    · -- growth path: the factory created instance `connectionsAlive_`
      subst hs'
      subst hp
      rw [hc] at h2
      simp at h2
      refine ⟨by simp; omega, by simp [hc]; omega, by simp; omega, ?_⟩
      simp [liveTags, hc, List.range_succ] at h4 ⊢
      exact (h4.cons c.pool.connectionsAlive).trans
        (List.perm_append_singleton c.pool.connectionsAlive
          (List.range c.pool.connectionsAlive)).symm
    · -- reuse path: the cache's back element moves to the caller
      subst hs'
      have hlen := congrArg List.length hc
      simp at hlen
      refine ⟨by simp; omega, by simp; omega, by simp; omega, ?_⟩
      simp [liveTags, hc] at h4 ⊢
      exact h4
  | free p pre post hco =>
    have hlen := congrArg List.length hco
    simp at hlen
    refine ⟨by simp [FreeConnection]; omega, by simp [FreeConnection]; omega,
      by simp [FreeConnection]; omega, ?_⟩
    have hperm : List.Perm
        ((c.pool.connections ++ [p]) ++ (pre ++ post))
        (c.pool.connections ++ c.checkedOut) := by
      rw [hco, List.append_assoc]
      exact List.Perm.append_left _ (@List.perm_middle _ p pre post).symm
    have h5 : List.Perm
        (liveTags { pool := (FreeConnection c.pool p 0).1, checkedOut := pre ++ post })
        (liveTags c) := by
      have h6 := hperm.filterMap (fun x : ConnectionPtr => Option.map FakeConnection.instanceTag x)
      simpa [liveTags, FreeConnection] using h6
    exact h5.trans h4

theorem inv_reachable {c : PoolConfig} (hr : PoolReachable c) : PoolInv c := by
  obtain ⟨n, hr⟩ := hr
  induction hr with
  | refl => exact inv_init n
  | tail hsteps hstep ih => exact inv_step hstep ih

theorem sizeSub_of_le {a b : Nat} (h : b ≤ a) (h2 : a < 2 ^ 64) : sizeSub a b = a - b := by
  unfold sizeSub
  omega

-- Concrete strings used as thread identifiers in the checks below.

def tidSeven : String := "7"

def tidBad : String := "abc"

/-! ## The claims -/

/-- C1: the claim is right and the code is wrong.  When the factory
`std::make_shared<FakeConnection>(stoi(threadId))` throws (here: `threadId`
`"abc"`, so `stoi` throws `std::invalid_argument`), the exception does
propagate to the caller of `GetConnection` — but the slot consumed by
`--free_` is NOT returned to `free_`: on a fresh capacity-1 pool the failed
call leaves `free_ = 0` while nothing was created and nothing is checked out,
so the pool state is changed and the capacity is permanently lost (every later
`GetConnection` waits on `free_ > 0` forever). -/
theorem stoi_failure_loses_slot :
    (GetConnection (initPool 1) tidBad).2 = Except.error () ∧
    (initPool 1).free = 1 ∧
    (GetConnection (initPool 1) tidBad).1.free = 0 ∧
    (GetConnection (initPool 1) tidBad).1.connectionsAlive = 0 ∧
    (GetConnection (initPool 1) tidBad).1.connections = [] := by
  refine ⟨rfl, rfl, rfl, rfl, rfl⟩

/-! ### Fine-grained semantics of `GetConnection` for the accessor claims

The three accessors read the data members without taking `mt_`, so they can
run at any point of `GetConnection`'s critical section.  `MicroStep`
interleaves the statements of one `GetConnection` call: acquire the lock and
pass the condition-variable wait, execute `--free_`, then execute the branch
(`++connectionsAlive_` on the growth path, `pop_back` on the reuse path) and
release the lock. -/

/-- Program counter of a thread executing `GetConnection`. -/
inductive GetPC
  | entry
  | locked
  | freeDecremented
  | done
deriving DecidableEq

/-- The pool fields together with the mutex state and the program counter of
the one in-flight `GetConnection` thread. -/
structure MState where
  pool : PoolState
  lockHeld : Bool
  pc : GetPC
deriving DecidableEq

/-- One statement of `GetConnection`'s critical section. -/
inductive MicroStep : MState → MState → Prop
  | lock (m : MState) :
      m.pc = GetPC.entry → m.lockHeld = false → 0 < m.pool.free →
      MicroStep m { m with lockHeld := true, pc := GetPC.locked }
  | decFree (m : MState) :
      m.pc = GetPC.locked →
      MicroStep m { m with pool := { m.pool with free := m.pool.free - 1 }, pc := GetPC.freeDecremented }
  | finishCreate (m : MState) :
      m.pc = GetPC.freeDecremented → m.pool.connections = [] →
      MicroStep m { m with pool := { m.pool with connectionsAlive := m.pool.connectionsAlive + 1 }, lockHeld := false, pc := GetPC.done }
  | finishReuse (m : MState) (l : List ConnectionPtr) (p : ConnectionPtr) :
      m.pc = GetPC.freeDecremented → m.pool.connections = l ++ [p] →
      MicroStep m { m with pool := { m.pool with connections := l }, lockHeld := false, pc := GetPC.done }

/-- A thread about to call `GetConnection` on a fresh capacity-1 pool. -/
def mEntry : MState := { pool := initPool 1, lockHeld := false, pc := GetPC.entry }

/-- The same thread holding the lock, past the condition-variable wait. -/
def mLocked : MState := { pool := initPool 1, lockHeld := true, pc := GetPC.locked }

/-- The same thread after `--free_` and before `++connectionsAlive_`. -/
def mMid : MState :=
  { pool := { connections := [], connectionsAlive := 0, free := 0, poolSize := 1 },
    lockHeld := true, pc := GetPC.freeDecremented }

/-- C2 counterexample: the torn state IS observable.  On a fresh capacity-1
pool, after a thread inside `GetConnection` has executed `--free_` but not yet
`++connectionsAlive_` (state `mMid`, reached in two micro-steps and not yet
`done`), the unsynchronised accessors — which read the fields without the
mutex — return `ConnectionsAlive() = 0 < 1 = ConnectionsInUse()`, refuting the
claim that no call can ever observe `ConnectionsAlive() < ConnectionsInUse()`
while another thread is mid-operation inside `GetConnection`. -/
theorem torn_read_counterexample :
    MicroStep mEntry mLocked ∧ MicroStep mLocked mMid ∧
    mMid.pc ≠ GetPC.done ∧
    ConnectionsAlive mMid.pool = 0 ∧ ConnectionsInUse mMid.pool = 1 := by
  refine ⟨?_, ?_, by decide, by decide, by decide⟩
  · exact MicroStep.lock mEntry rfl rfl (by decide)
  · exact MicroStep.decFree mLocked rfl

/-- C2 amended: the accessors are unsynchronised non-blocking field reads, and
a call concurrent with `GetConnection` CAN observe the internally torn state:
from a fresh capacity-1 pool there is a reachable moment, with the
`GetConnection` thread still mid-operation, at which
`ConnectionsAlive() < ConnectionsInUse()`. -/
theorem torn_read_reachable :
    ∃ m : MState, Relation.ReflTransGen MicroStep mEntry m ∧
      m.pc ≠ GetPC.done ∧ ConnectionsAlive m.pool < ConnectionsInUse m.pool := by
  refine ⟨mMid, ?_, by decide, by decide⟩
  exact Relation.ReflTransGen.tail
    (Relation.ReflTransGen.single (MicroStep.lock mEntry rfl rfl (by decide)))
    (MicroStep.decFree mLocked rfl)

/-- C3 counterexample: the constructor does not fail on capacity `0` — it
validates nothing and produces a pool with `poolSize_ = 0`, `free_ = 0`, no
connections. -/
theorem pool_accepts_zero_capacity :
    initPool 0 = { connections := [], connectionsAlive := 0, free := 0, poolSize := 0 } := rfl

/-- C3 amended: the constructor cannot report anything: the capacity parameter
is an unsigned `size_t` (negative values are unrepresentable), and every value
including `0` is accepted silently.  The capacity-0 pool it produces has
`PoolSize() = 0` and no available slots, so no operation on it can ever
complete (see `zero_capacity_pool_stuck`). -/
theorem zero_capacity_pool_state :
    PoolSize (initPool 0) = 0 ∧ (initPool 0).free = 0 ∧
    ConnectionsAlive (initPool 0) = 0 ∧ ConnectionsInUse (initPool 0) = 0 := by
  refine ⟨rfl, rfl, rfl, by decide⟩

/-- A capacity-0 pool is stuck: `GetConnection` waits on `free_ > 0` forever
and no caller holds a connection that could be freed. -/
theorem zero_capacity_pool_stuck (c' : PoolConfig) : ¬ PoolStep (initConfig 0) c' := by
  intro h
  cases h with
  | get tid s' p hfree heq =>
    simp [initConfig, initPool] at hfree
  | free p pre post hco =>
    have hlen := congrArg List.length hco
    simp [initConfig] at hlen
    omega

/-- Supporting result: in every state reachable by SUCCESSFUL operations under
correct usage, `ConnectionsInUse() ≤ ConnectionsAlive() ≤ PoolSize()`.  Since
`connectionsAlive_` is incremented exactly once per resource creation and
never decremented (`connectionsAlive_monotone`), the bound
`ConnectionsAlive() ≤ PoolSize()` also bounds the number of factory
invocations over the pool's lifetime by the capacity.  The hypothesis
`poolSize_ < 2 ^ 64` records that the capacity is a C++ `size_t`.  This does
NOT extend to executions containing a `GetConnection` whose factory throws:
see `invariant_violation_after_failed_get`. -/
theorem pool_invariants (c : PoolConfig) (hr : PoolReachable c)
    (hps : c.pool.poolSize < 2 ^ 64) :
    ConnectionsInUse c.pool ≤ ConnectionsAlive c.pool ∧
    ConnectionsAlive c.pool ≤ PoolSize c.pool := by
  obtain ⟨h1, h2, h3, h4⟩ := inv_reachable hr
  constructor
  · have hfle : c.pool.free ≤ c.pool.poolSize := by omega
    have hsub : ConnectionsInUse c.pool = c.pool.poolSize - c.pool.free :=
      sizeSub_of_le hfle hps
    rw [hsub]
    unfold ConnectionsAlive
    omega
  · exact h3

/-- Concrete instantiation of `pool_invariants`. -/
theorem pool_invariants_check :
    ConnectionsInUse (initConfig 1).pool ≤ ConnectionsAlive (initConfig 1).pool ∧
    ConnectionsAlive (initConfig 1).pool ≤ PoolSize (initConfig 1).pool :=
  pool_invariants (initConfig 1) ⟨1, Relation.ReflTransGen.refl⟩ (by decide)

/-- Failure-inclusive semantics of correct usage: every `PoolStep`, and
additionally a `GetConnection` call whose factory throws.  Such a call is
permitted under correct usage — correct usage only constrains what callers do
with the results they actually receive, and a throwing call hands its caller
nothing — so executions of this relation are reachable in a correctly used
pool whose thread-id strings do not always parse. -/
inductive PoolStepF : PoolConfig → PoolConfig → Prop
  | ok (c c' : PoolConfig) : PoolStep c c' → PoolStepF c c'
  | getThrow (c : PoolConfig) (tid : String) (s' : PoolState) :
      0 < c.pool.free →
      GetConnection c.pool tid = (s', Except.error ()) →
      PoolStepF c { pool := s', checkedOut := c.checkedOut }

/-- C4: the claim is right and the code is wrong.  Correct usage (each
`GetConnection` result later passed to exactly one `FreeConnection`) permits a
`GetConnection` call whose factory throws, since that call returns no result;
after one such call on a fresh capacity-1 pool (`GetConnection("abc")`, where
`stoi` throws), the pool sits at a quiescent state with
`ConnectionsInUse() = 1 > 0 = ConnectionsAlive()`: the claimed invariant —
which `main` itself asserts each sampling round
(`assert(connectionsInUse <= connectionsAlive)`) — is violated, because
`--free_` is not rolled back when the factory throws (the same slip as C1). -/
theorem invariant_violation_after_failed_get :
    PoolStepF (initConfig 1)
      { pool := { connections := [], connectionsAlive := 0, free := 0, poolSize := 1 },
        checkedOut := [] } ∧
    ConnectionsInUse { connections := [], connectionsAlive := 0, free := 0, poolSize := 1 } = 1 ∧
    ConnectionsAlive { connections := [], connectionsAlive := 0, free := 0, poolSize := 1 } = 0 := by
  refine ⟨?_, by decide, rfl⟩
  exact PoolStepF.getThrow (initConfig 1) tidBad
    { connections := [], connectionsAlive := 0, free := 0, poolSize := 1 } (by decide) rfl

/-- C5: exclusive ownership.  In every reachable state under correct usage the
created instances are exactly the tags `0, …, connectionsAlive_ - 1`, and the
list of ownership slots (idle cache followed by checked-out handles) holds each
of them exactly once: no instance is ever both idle and checked out, and no two
checked-out `GetConnection` results reference the same `FakeConnection`
instance. -/
theorem exclusive_ownership (c : PoolConfig) (hr : PoolReachable c) :
    (liveTags c).Nodup ∧
    List.Perm (liveTags c) (List.range (ConnectionsAlive c.pool)) := by
  obtain ⟨h1, h2, h3, h4⟩ := inv_reachable hr
  exact ⟨h4.nodup_iff.mpr (List.nodup_range _), h4⟩

/-- The pool state after one successful `GetConnection` on a fresh capacity-1
pool (used by the C5 witness). -/
def cfgAfterGet : PoolConfig :=
  { pool := { connections := [], connectionsAlive := 1, free := 0, poolSize := 1 },
    checkedOut := [some { instanceTag := 0, id := 7 }] }

/-- C5 witness: a configuration reached by one real `GetConnection` step. -/
theorem exclusive_ownership_check :
    (liveTags cfgAfterGet).Nodup ∧
    List.Perm (liveTags cfgAfterGet) (List.range (ConnectionsAlive cfgAfterGet.pool)) :=
  exclusive_ownership cfgAfterGet
    ⟨1, Relation.ReflTransGen.single
      (PoolStep.get (initConfig 1) tidSeven cfgAfterGet.pool
        (some { instanceTag := 0, id := 7 }) (by decide) rfl)⟩

/-- C6: in every reachable state under correct usage, a free slot with an
empty idle cache implies room under capacity: `free_ > 0` and
`connections_.empty` give `ConnectionsAlive() < PoolSize()`, so the growth
test `connections_.size() == 0` taken after `free_ > 0` held only creates a
new resource when the capacity is not yet reached. -/
theorem free_slot_means_room (c : PoolConfig) (hr : PoolReachable c)
    (hfree : 0 < c.pool.free) (hempty : c.pool.connections = []) :
    ConnectionsAlive c.pool < PoolSize c.pool := by
  obtain ⟨h1, h2, h3, h4⟩ := inv_reachable hr
  rw [hempty] at h2
  unfold ConnectionsAlive PoolSize
  simp at h2
  omega

/-- C6 witness. -/
theorem free_slot_means_room_check :
    ConnectionsAlive (initConfig 2).pool < PoolSize (initConfig 2).pool :=
  free_slot_means_room (initConfig 2) ⟨2, Relation.ReflTransGen.refl⟩ (by decide) rfl

/-- C7: LIFO reuse.  When the idle cache is non-empty (`connections_ = l ++ [p]`
with back element `p`), `GetConnection` returns exactly `p` — the most recently
pushed element, hence the most recently returned resource, since
`FreeConnection` pushes at the back (last conjunct) — removes it from the
cache, creates nothing (`connectionsAlive_` unchanged) and consumes one slot. -/
theorem getConnection_reuses_last (s : PoolState) (tid : String) (q : ConnectionPtr)
    (w : Nat) (l : List ConnectionPtr) (p : ConnectionPtr)
    (hc : s.connections = l ++ [p]) :
    (GetConnection s tid).2 = Except.ok p ∧
    (GetConnection s tid).1.connections = l ∧
    (GetConnection s tid).1.connectionsAlive = s.connectionsAlive ∧
    (GetConnection s tid).1.free = s.free - 1 ∧
    ((FreeConnection s q w).1.connections).getLast? = some q := by
  refine ⟨?_, ?_, ?_, ?_, ?_⟩ <;>
    simp [GetConnection, FreeConnection, hc, List.getLast?_concat, List.dropLast_concat]

/-- A capacity-1 pool whose single connection sits in the idle cache (used by
the C7 witness). -/
def poolOneIdle : PoolState :=
  { connections := [some { instanceTag := 0, id := 7 }],
    connectionsAlive := 1, free := 1, poolSize := 1 }

/-- C7 witness. -/
theorem getConnection_reuses_last_check :
    (GetConnection poolOneIdle tidSeven).2 = Except.ok (some { instanceTag := 0, id := 7 }) ∧
    (GetConnection poolOneIdle tidSeven).1.connections = [] ∧
    (GetConnection poolOneIdle tidSeven).1.connectionsAlive = poolOneIdle.connectionsAlive ∧
    (GetConnection poolOneIdle tidSeven).1.free = poolOneIdle.free - 1 ∧
    ((FreeConnection poolOneIdle none 0).1.connections).getLast? = some none :=
  getConnection_reuses_last poolOneIdle tidSeven none 0 []
    (some { instanceTag := 0, id := 7 }) rfl

/-- C8: for every call, `FreeConnection` pushes the handle at the back of the
idle cache, increments `free_` by exactly one, leaves `connectionsAlive_` and
`poolSize_` unchanged, and `cv_.notify_one()` wakes `min waiting 1` blocked
waiters — exactly one when any exists, none otherwise.  The operation is a
total function of the pre-state: it has no condition wait and never blocks. -/
theorem freeConnection_effect (s : PoolState) (p : ConnectionPtr) (w : Nat) :
    (FreeConnection s p w).1.connections = s.connections ++ [p] ∧
    (FreeConnection s p w).1.free = s.free + 1 ∧
    (FreeConnection s p w).1.connectionsAlive = s.connectionsAlive ∧
    (FreeConnection s p w).1.poolSize = s.poolSize ∧
    (FreeConnection s p w).2.2 = min w 1 := by
  refine ⟨rfl, rfl, rfl, rfl, rfl⟩

/-- C9: `connectionsAlive_` is monotone.  `GetConnection` never decreases it on
any path (growth, reuse, or thrown factory), `FreeConnection` leaves it exactly
unchanged, the accessors are read-only, and in every reachable state under
correct usage it is bounded above by the capacity. -/
theorem connectionsAlive_monotone (s : PoolState) (tid : String) (p : ConnectionPtr)
    (w : Nat) (c : PoolConfig) (hr : PoolReachable c) :
    s.connectionsAlive ≤ (GetConnection s tid).1.connectionsAlive ∧
    (FreeConnection s p w).1.connectionsAlive = s.connectionsAlive ∧
    ConnectionsAlive c.pool ≤ PoolSize c.pool := by
  refine ⟨?_, rfl, (inv_reachable hr).2.2.1⟩
  unfold GetConnection
  rcases h : (({ s with free := s.free - 1 } : PoolState).connections).getLast? with _ | q
  · rcases h2 : stoiOpt tid with _ | m <;> simp [h, h2]
  · simp [h]

/-- C9 witness. -/
theorem connectionsAlive_monotone_check :
    (initPool 2).connectionsAlive ≤ (GetConnection (initPool 2) tidSeven).1.connectionsAlive ∧
    (FreeConnection (initPool 2) none 0).1.connectionsAlive = (initPool 2).connectionsAlive ∧
    ConnectionsAlive (initConfig 1).pool ≤ PoolSize (initConfig 1).pool :=
  connectionsAlive_monotone (initPool 2) tidSeven none 0 (initConfig 1)
    ⟨1, Relation.ReflTransGen.refl⟩

/-- C10: `FreeConnection` takes the caller's `ConnectionPtr` by non-const
reference and moves from it (`std::move`), so after every call that returns,
the caller's handle is the empty `shared_ptr` — while the pointer value that
was moved into the cache is exactly the caller's former handle, now at the
back of `connections_`. -/
theorem freeConnection_moves_from_handle (s : PoolState) (p : ConnectionPtr) (w : Nat) :
    (FreeConnection s p w).2.1 = none ∧
    (FreeConnection s p w).1.connections = s.connections ++ [p] := by
  refine ⟨rfl, rfl⟩
